import Mathlib

/-!
# TabBarBottom (src/views/TabView/TabBarBottom.js)

A shallow embedding of the bottom tab bar component: its props, the values it
builds while rendering, and the three methods `_renderLabel`, `_renderIcon`
and `render`.

Conventions of the embedding.

* A colour is its four channels (red, green, blue, alpha) as rationals.
* An `Animated.Value` is its current value; `position.interpolate(cfg)` is the
  node holding `cfg` and the value it is derived from.
* Host callbacks (`jumpToIndex`, `getLabel`, a label render function) are
  recorded in a log of calls, in the order in which the component makes them;
  every method returns what it renders together with the calls it made.
* A style is a list of entries; a style array is a list of optional styles.
-/

namespace TabBarBottom

/-! ## Colours and the interpolation primitive -/

/-- A colour as four rational channels. -/
structure Color where
  r : ℚ
  g : ℚ
  b : ℚ
  a : ℚ
deriving DecidableEq

/-- The blend `w * x + (1 - w) * y`, channel by channel: `w` is the weight of `x`. -/
def Color.mix (w : ℚ) (x y : Color) : Color :=
  ⟨w * x.r + (1 - w) * y.r, w * x.g + (1 - w) * y.g,
   w * x.b + (1 - w) * y.b, w * x.a + (1 - w) * y.a⟩

/-- The point at `p` of the straight line through `(x0, c0)` and `(x1, c1)`. -/
def Color.lerp (x0 x1 : ℚ) (c0 c1 : Color) (p : ℚ) : Color :=
  ⟨c0.r + (p - x0) / (x1 - x0) * (c1.r - c0.r),
   c0.g + (p - x0) / (x1 - x0) * (c1.g - c0.g),
   c0.b + (p - x0) / (x1 - x0) * (c1.b - c0.b),
   c0.a + (p - x0) / (x1 - x0) * (c1.a - c0.a)⟩

/-- The argument of `position.interpolate`. -/
structure InterpolationConfig where
  inputRange : List Int
  outputRange : List Color
deriving DecidableEq

/-- The piecewise-linear map through a list of break points: the first segment
whose right end is not below `p` is used, the last one when there is none (the
map is extended linearly on both sides). Fewer than two break points: no value. -/
def interpolateSegments : List (ℚ × Color) → ℚ → Option Color
  | (x0, c0) :: (x1, c1) :: rest, p =>
      if p ≤ x1 ∨ rest = [] then some (Color.lerp x0 x1 c0 c1 p)
      else interpolateSegments ((x1, c1) :: rest) p
  | _, _ => none

/-- Modelled from the spec: the interpolation primitive of the animation
library (`Animated.Value.interpolate`), which is not part of the source file.
The spec describes it as a continuous mapping from a scalar progress value to a
colour via a piecewise domain/range table that blends linearly, and as
demanding at least two break points; it is the piecewise-linear map through the
points `(inputRange[k], outputRange[k])`, without a value when the two ranges
differ in length or have fewer than two items. -/
def interpolate (cfg : InterpolationConfig) (p : ℚ) : Option Color :=
  if cfg.inputRange.length = cfg.outputRange.length then
    interpolateSegments ((cfg.inputRange.map (fun (x : Int) => (x : ℚ))).zip cfg.outputRange) p
  else none

/-- An `Animated.Value`: the externally driven animation progress. -/
structure AnimatedValue where
  value : ℚ
deriving DecidableEq

/-- The node returned by `position.interpolate(cfg)`. -/
structure AnimatedInterpolation where
  parent : AnimatedValue
  config : InterpolationConfig
deriving DecidableEq

/-- The call `position.interpolate(cfg)`. -/
def AnimatedValue.interpolate (position : AnimatedValue) (cfg : InterpolationConfig) :
    AnimatedInterpolation :=
  ⟨position, cfg⟩

/-- The colour an interpolation node shows for the current value of its parent. -/
def AnimatedInterpolation.getValue (n : AnimatedInterpolation) : Option Color :=
  interpolate n.config n.parent.value

/-! ## Styles -/

/-- The value of one style entry. -/
inductive StyleValue where
  | str (s : String)
  | num (q : ℚ)
  | color (c : Color)
  | offset (width height : ℚ)
  | animated (n : AnimatedInterpolation)
deriving DecidableEq

/-- A style object: its entries, in order. -/
abbrev Style := List (String × StyleValue)

/-- The value a style object gives to `key`, if any. -/
def Style.get? (s : Style) (key : String) : Option StyleValue :=
  (s.find? (fun e => e.1 == key)).map Prod.snd

/-- Modelled from the spec: the resolution of a style array by the UI
framework, which is not part of the source file. The spec calls the `style`,
`tabStyle` and `labelStyle` slots style overrides: in a style array a later
entry overrides an earlier one, and an absent style contributes nothing. -/
def resolveStyle : List (Option Style) → String → Option StyleValue
  | [], _ => none
  | s :: rest, key =>
      match resolveStyle rest key with
      | some v => some v
      | none =>
          match s with
          | some st => st.get? key
          | none => none

/-- The colour `transparent`. -/
def transparent : Color := ⟨0, 0, 0, 0⟩

/-- The style table `styles` (lines 181-208). -/
structure Styles where
  tabBarWrapper : Style
  tabBar : Style
  tab : Style
  icon : Style
  label : Style

/-- The value of `StyleSheet.create(...)` at the end of the file. -/
def styles : Styles where
  tabBarWrapper :=
    [("paddingHorizontal", .num 16), ("paddingBottom", .num 16),
     ("backgroundColor", .color ⟨241, 241, 241, 1⟩)]
  tabBar :=
    [("height", .num 49), ("flexDirection", .str "row"),
     ("borderTopColor", .color ⟨0, 0, 0, 3 / 10⟩),
     ("backgroundColor", .color ⟨255, 255, 255, 1⟩),
     ("shadowColor", .color ⟨128, 128, 128, 1⟩), ("shadowOpacity", .num (1 / 2)),
     ("shadowRadius", .num 10), ("shadowOffset", .offset 0 0)]
  tab := [("flex", .num 1), ("alignItems", .str "stretch"), ("justifyContent", .str "flex-end")]
  icon := [("flexGrow", .num 1)]
  label :=
    [("textAlign", .str "center"), ("fontSize", .num 10), ("marginBottom", .num (3 / 2)),
     ("backgroundColor", .color transparent)]

/-! ## Navigation state, scenes and props -/

/-- A route of the navigation state. -/
structure NavigationRoute where
  key : String
  routeName : String
deriving DecidableEq

/-- The navigation state: the routes and the index of the active one. -/
structure NavigationState where
  index : Int
  routes : List NavigationRoute
deriving DecidableEq

/-- The `navigation` prop. -/
structure NavigationScreenProp where
  state : NavigationState
deriving DecidableEq

/-- The scene built for one route on a render pass. -/
structure TabScene where
  route : NavigationRoute
  index : Nat
  focused : Bool
deriving DecidableEq

/-- The scene handed to the label delegates: a scene together with `tintColor`. -/
structure LabelScene where
  route : NavigationRoute
  index : Nat
  focused : Bool
  tintColor : Color
deriving DecidableEq

/-- The object `{ ...scene, tintColor }`. -/
def TabScene.withTint (scene : TabScene) (tintColor : Color) : LabelScene :=
  ⟨scene.route, scene.index, scene.focused, tintColor⟩

/-- A call made by the component to a function supplied by its host. -/
inductive Call where
  | jumpToIndex (args : List Int)
  | getLabel (arg : LabelScene)
  | label (arg : LabelScene)
deriving DecidableEq

/-- What a sub-render returns. -/
inductive Node where
  | null
  | undefined
  | element (name : String)
  | animatedText (style : List (Option Style)) (children : String)
  | tabBarIcon (position : AnimatedValue) (navigation : NavigationScreenProp)
      (activeTintColor inactiveTintColor : Color) (renderIcon : TabScene → Node)
      (scene : TabScene) (style : Style)

/-- The value returned by `getLabel`, by its runtime shape: a string, a function,
or anything else (an element, `null`, `undefined`). -/
inductive Label where
  | str (s : String)
  | fn (f : LabelScene → Node)
  | other (n : Node)

/-- The static `defaultProps` (lines 49-56). -/
structure DefaultProps where
  activeTintColor : Color
  activeBackgroundColor : Color
  inactiveTintColor : Color
  inactiveBackgroundColor : Color
  showLabel : Bool
  showIcon : Bool
deriving DecidableEq

/-- The value of `defaultProps`: `#3478f6`, `transparent`, `#929292`,
`transparent`, `true`, `true`. -/
def defaultProps : DefaultProps where
  activeTintColor := ⟨52, 120, 246, 1⟩
  activeBackgroundColor := transparent
  inactiveTintColor := ⟨146, 146, 146, 1⟩
  inactiveBackgroundColor := transparent
  showLabel := true
  showIcon := true

/-- The props of the component (lines 26-41). `jumpToIndex` returns nothing:
a call to it is the log entry `Call.jumpToIndex`. -/
structure Props where
  activeTintColor : Color
  activeBackgroundColor : Color
  inactiveTintColor : Color
  inactiveBackgroundColor : Color
  position : AnimatedValue
  navigation : NavigationScreenProp
  getLabel : LabelScene → Label
  renderIcon : TabScene → Node
  showLabel : Bool
  style : Option Style
  labelStyle : Option Style
  tabStyle : Option Style
  showIcon : Bool

/-! ## The methods -/

/-- The array `[-1, ...routes.map((x, i) => i)]` (lines 75 and 139). -/
def inputRange (routes : List NavigationRoute) : List Int :=
  -1 :: routes.mapIdx (fun i _ => (i : Int))

/-- The array `inputRange.map(inputIndex => inputIndex === index ? active : inactive)`
(lines 76-79 and 146-151). -/
def outputRange (range : List Int) (index : Nat) (active inactive : Color) : List Color :=
  range.map (fun inputIndex => if inputIndex = (index : Int) then active else inactive)

/-- The constant `color` of `_renderLabel` (lines 72-83). -/
def labelColor (props : Props) (scene : TabScene) : AnimatedInterpolation :=
  let index := scene.index
  let routes := props.navigation.state.routes
  let inputRange := inputRange routes
  let outputRange := outputRange inputRange index props.activeTintColor props.inactiveTintColor
  props.position.interpolate ⟨inputRange, outputRange⟩

/-- The constant `tintColor` of `_renderLabel` (line 85). -/
def tintColor (props : Props) (scene : TabScene) : Color :=
  if scene.focused then props.activeTintColor else props.inactiveTintColor

/-- The method `_renderLabel` (lines 60-100): the label and the calls made. -/
def _renderLabel (props : Props) (scene : TabScene) : Node × List Call :=
  if props.showLabel = false then (Node.null, [])
  else
    let color := labelColor props scene
    let tintColor := tintColor props scene
    let arg := scene.withTint tintColor
    match props.getLabel arg with
    | Label.str label =>
        (Node.animatedText [some styles.label, some [("color", .animated color)], props.labelStyle]
          label, [Call.getLabel arg])
    | Label.fn label => (label (scene.withTint tintColor), [Call.getLabel arg, Call.label arg])
    | Label.other label => (label, [Call.getLabel arg])

/-- The method `_renderIcon` (lines 102-125): the icon and the calls made. -/
def _renderIcon (props : Props) (scene : TabScene) : Node × List Call :=
  if props.showIcon = false then (Node.null, [])
  else
    (Node.tabBarIcon props.position props.navigation props.activeTintColor
      props.inactiveTintColor props.renderIcon scene styles.icon, [])

/-- The argument a press handler receives from the touchable. -/
structure PressEvent where
  timestamp : Nat
deriving DecidableEq

/-- One `TouchableWithoutFeedback` with the `Animated.View` it wraps. -/
structure Tab where
  key : String
  onPress : PressEvent → List Call
  style : List (Option Style)
  icon : Node
  label : Node

/-- The tree returned by `render`. -/
structure TabBar where
  wrapperStyle : List (Option Style)
  barStyle : List (Option Style)
  tabs : List Tab

/-- The scene of `render` (lines 144-145). -/
def scene (navigation : NavigationScreenProp) (route : NavigationRoute) (index : Nat) : TabScene :=
  let focused := decide ((index : Int) = navigation.state.index)
  ⟨route, index, focused⟩

/-- The constant `backgroundColor` of `render` (lines 146-155). -/
def backgroundColor (props : Props) (index : Nat) : AnimatedInterpolation :=
  let routes := props.navigation.state.routes
  let inputRange := inputRange routes
  let outputRange :=
    outputRange inputRange index props.activeBackgroundColor props.inactiveBackgroundColor
  props.position.interpolate ⟨inputRange, outputRange⟩

/-- The constant `justifyContent` of `render` (line 156). -/
def justifyContent (props : Props) : String :=
  if props.showIcon then "flex-end" else "center"

/-- The callback of `routes.map` in `render` (lines 143-174): the tab of one
route and the calls made while building it. -/
def renderTab (props : Props) (index : Nat) (route : NavigationRoute) : Tab × List Call :=
  let scene := scene props.navigation route index
  let backgroundColor := backgroundColor props index
  let justifyContent := justifyContent props
  let icon := _renderIcon props scene
  let label := _renderLabel props scene
  ({ key := route.key
     onPress := fun _ => [Call.jumpToIndex [(index : Int)]]
     style :=
       [some styles.tab,
        some [("backgroundColor", .animated backgroundColor), ("justifyContent", .str justifyContent)],
        props.tabStyle]
     icon := icon.1
     label := label.1 },
   icon.2 ++ label.2)

/-- The method `render` (lines 127-178): the tree and the calls made. -/
def render (props : Props) : TabBar × List Call :=
  let routes := props.navigation.state.routes
  let tabs := routes.mapIdx (renderTab props)
  ({ wrapperStyle := [some styles.tabBarWrapper]
     barStyle := [some styles.tabBar, props.style]
     tabs := tabs.map Prod.fst },
   (tabs.map Prod.snd).flatten)


/-! ## Example inputs -/

/-- The routes A, B, C. -/
def exampleRoutes : List NavigationRoute :=
  [⟨"a", "A"⟩, ⟨"b", "B"⟩, ⟨"c", "C"⟩]

/-- Props over the routes A, B, C with B active, the progress at 1, opaque red and
blue tints, and a label delegate that returns the route name. -/
def exampleProps : Props where
  activeTintColor := ⟨255, 0, 0, 1⟩
  activeBackgroundColor := ⟨255, 255, 255, 1⟩
  inactiveTintColor := ⟨0, 0, 255, 1⟩
  inactiveBackgroundColor := ⟨0, 0, 0, 1⟩
  position := ⟨1⟩
  navigation := ⟨⟨1, exampleRoutes⟩⟩
  getLabel := fun s => Label.str s.route.routeName
  renderIcon := fun _ => Node.element "icon"
  showLabel := true
  style := none
  labelStyle := none
  tabStyle := none
  showIcon := true

/-- Props with the default colours of `defaultProps` over two routes, the
progress halfway between them. -/
def defaultExample : Props where
  activeTintColor := defaultProps.activeTintColor
  activeBackgroundColor := defaultProps.activeBackgroundColor
  inactiveTintColor := defaultProps.inactiveTintColor
  inactiveBackgroundColor := defaultProps.inactiveBackgroundColor
  position := ⟨1 / 2⟩
  navigation := ⟨⟨0, [⟨"a", "A"⟩, ⟨"b", "B"⟩]⟩⟩
  getLabel := fun s => Label.str s.route.routeName
  renderIcon := fun _ => Node.element "icon"
  showLabel := defaultProps.showLabel
  style := none
  labelStyle := none
  tabStyle := none
  showIcon := defaultProps.showIcon

/-- Props over an empty route list. -/
def emptyProps : Props :=
  { exampleProps with navigation := ⟨⟨0, []⟩⟩, position := ⟨0⟩ }

/-- Props over two routes that carry the same key. -/
def duplicateKeyProps : Props :=
  { exampleProps with navigation := ⟨⟨0, [⟨"a", "A"⟩, ⟨"a", "B"⟩]⟩⟩ }

/-- Props that show icons and whose `tabStyle` sets `justifyContent` to `center`. -/
def overrideProps : Props :=
  { exampleProps with tabStyle := some [("justifyContent", .str "center")] }

/-- Props whose `labelStyle` sets the colour green. -/
def greenLabelProps : Props :=
  { exampleProps with labelStyle := some [("color", .color ⟨0, 255, 0, 1⟩)] }

/-! ## Notions used to state the properties -/

/-- The weight `1 - |p - index|` of the active colour for the route `index` at
progress `p`. -/
def activeWeight (p : ℚ) (index : Nat) : ℚ :=
  1 - |p - (index : ℚ)|

/-- The colour `c` is strictly between `x` and `y`: a blend of the two with a
weight strictly inside `(0, 1)` that is neither `x` nor `y`. -/
def Color.StrictlyBetween (c x y : Color) : Prop :=
  (∃ w : ℚ, 0 < w ∧ w < 1 ∧ c = Color.mix w x y) ∧ c ≠ x ∧ c ≠ y

/-- The resolved colour of a text element: what its style array gives to
`color`; nothing for any other node. -/
def Node.color? : Node → Option StyleValue
  | .animatedText style _ => resolveStyle style "color"
  | _ => none

/-- The scenes that `render` builds, in route order (lines 143-145). -/
def scenes (props : Props) : List TabScene :=
  props.navigation.state.routes.mapIdx (fun index route => scene props.navigation route index)

/-! ## Facts about the ranges -/

theorem mapIdx_index_eq_range (routes : List NavigationRoute) :
    routes.mapIdx (fun i _ => (i : Int)) = (List.range routes.length).map (fun (i : Nat) => (i : Int)) := by
  apply List.ext_getElem?
  intro n
  rw [List.getElem?_mapIdx, List.getElem?_map]
  by_cases h : n < routes.length
  · rw [List.getElem?_eq_getElem h, List.getElem?_range h]
    rfl
  · rw [List.getElem?_eq_none (Nat.le_of_not_lt h),
      List.getElem?_eq_none (by simpa using Nat.le_of_not_lt h)]
    rfl

theorem inputRange_length (routes : List NavigationRoute) :
    (inputRange routes).length = routes.length + 1 := by
  simp [inputRange]

theorem outputRange_length (range : List Int) (index : Nat) (x y : Color) :
    (outputRange range index x y).length = range.length := by
  simp [outputRange]

theorem inputRange_getElem? (routes : List NavigationRoute) (k : Nat)
    (h : k < routes.length + 1) : (inputRange routes)[k]? = some ((k : Int) - 1) := by
  cases k with
  | zero => simp [inputRange]
  | succ n =>
    have hn : n < routes.length := by omega
    simp [inputRange, List.getElem?_mapIdx, List.getElem?_eq_getElem hn]

/-! ## Facts about the interpolation -/

theorem Color.lerp_right (x0 x1 : ℚ) (c0 c1 : Color) (h : x0 ≠ x1) :
    Color.lerp x0 x1 c0 c1 x1 = c1 := by
  have hx : x1 - x0 ≠ 0 := sub_ne_zero.mpr (Ne.symm h)
  cases c1
  simp [Color.lerp, div_self hx]

theorem Color.lerp_unit_left (n p : ℚ) (x y : Color) :
    Color.lerp n (n + 1) x y p = Color.mix (1 - (p - n)) x y := by
  simp only [Color.lerp, Color.mix, add_sub_cancel_left, div_one, Color.mk.injEq]
  refine ⟨?_, ?_, ?_, ?_⟩ <;> ring

theorem Color.lerp_unit_right (n p : ℚ) (x y : Color) :
    Color.lerp n (n + 1) y x p = Color.mix (p - n) x y := by
  simp only [Color.lerp, Color.mix, add_sub_cancel_left, div_one, Color.mk.injEq]
  refine ⟨?_, ?_, ?_, ?_⟩ <;> ring

/-- On a strictly increasing list of break points, a progress in the half-open
segment between the break points `k` and `k + 1` is mapped by that segment. -/
theorem interpolateSegments_segment :
    ∀ (pts : List (ℚ × Color)) (k : Nat) (u v : ℚ × Color) (p : ℚ),
      pts.Pairwise (fun s t => s.1 < t.1) → pts[k]? = some u → pts[k + 1]? = some v →
      u.1 < p → p ≤ v.1 →
      interpolateSegments pts p = some (Color.lerp u.1 v.1 u.2 v.2 p)
  | [], k, u, v, p, _, hu, _, _, _ => by simp at hu
  | [_], k, u, v, p, _, _, hv, _, _ => by simp at hv
  | (x0, c0) :: (x1, c1) :: rest, 0, u, v, p, _, hu, hv, _, hle => by
      simp only [List.getElem?_cons_zero, Option.some.injEq, zero_add,
        List.getElem?_cons_succ] at hu hv
      subst hu
      subst hv
      simp [interpolateSegments, hle]
  | (x0, c0) :: (x1, c1) :: rest, k + 1, u, v, p, hs, hu, hv, hlt, hle => by
      have hs2 : ((x1, c1) :: rest).Pairwise (fun s t => s.1 < t.1) := (List.pairwise_cons.mp hs).2
      have hu2 : ((x1, c1) :: rest)[k]? = some u := by simpa using hu
      have hv2 : ((x1, c1) :: rest)[k + 1]? = some v := by simpa using hv
      have hx1 : x1 ≤ u.1 := by
        cases k with
        | zero =>
          simp only [List.getElem?_cons_zero, Option.some.injEq] at hu2
          simp [← hu2]
        | succ j =>
          have hmem : u ∈ rest := by
            simp only [List.getElem?_cons_succ] at hu2
            exact List.getElem?_mem hu2
          exact le_of_lt ((List.pairwise_cons.mp hs2).1 u hmem)
      have hrest : rest ≠ [] := by
        intro h
        subst h
        simp at hv2
      have hnot : ¬ (p ≤ x1 ∨ rest = []) := by
        rintro (h | h)
        · exact absurd (lt_of_lt_of_le hlt h) (not_lt.mpr hx1)
        · exact hrest h
      rw [interpolateSegments, if_neg hnot]
      exact interpolateSegments_segment _ k u v p hs2 hu2 hv2 hlt hle

/-- The break points built by the component for one route: the indices
`-1, 0, ..., N - 1`, each with the active colour at the route's own index and
the inactive colour elsewhere. -/
theorem zip_ranges (routes : List NavigationRoute) (index : Nat) (x y : Color) :
    ((inputRange routes).map (fun (n : Int) => (n : ℚ))).zip (outputRange (inputRange routes) index x y)
      = (inputRange routes).map
          (fun (n : Int) => ((n : ℚ), if n = (index : Int) then x else y)) := by
  unfold outputRange
  generalize inputRange routes = l
  induction l with
  | nil => rfl
  | cons a t ih => simp [ih]

theorem inputRange_eq (routes : List NavigationRoute) :
    inputRange routes = -1 :: (List.range routes.length).map (fun (i : Nat) => (i : Int)) := by
  rw [inputRange, mapIdx_index_eq_range]

theorem inputRange_pairwise (routes : List NavigationRoute) :
    (inputRange routes).Pairwise (fun s t => s < t) := by
  rw [inputRange_eq, List.pairwise_cons]
  refine ⟨?_, ?_⟩
  · intro t ht
    rw [List.mem_map] at ht
    obtain ⟨i, _, rfl⟩ := ht
    omega
  · rw [List.pairwise_map]
    exact (List.pairwise_lt_range _).imp (fun h => by exact_mod_cast h)

/-- The value of the interpolation built for route `index`, for a progress in
the segment that ends at the break point `k`. -/
theorem interpolate_ranges (routes : List NavigationRoute) (index : Nat) (x y : Color)
    (k : Nat) (p : ℚ) (hk : k < routes.length) (hlt : (k : ℚ) - 1 < p) (hle : p ≤ (k : ℚ)) :
    interpolate ⟨inputRange routes, outputRange (inputRange routes) index x y⟩ p
      = some (Color.lerp ((k : ℚ) - 1) (k : ℚ)
          (if (k : Int) - 1 = (index : Int) then x else y)
          (if (k : Int) = (index : Int) then x else y) p) := by
  unfold interpolate
  simp only [outputRange_length, if_true]
  rw [zip_ranges]
  have hs : ((inputRange routes).map
      (fun (n : Int) => ((n : ℚ), if n = (index : Int) then x else y))).Pairwise
      (fun s t => s.1 < t.1) := by
    rw [List.pairwise_map]
    exact (inputRange_pairwise routes).imp (fun h => by
      show ((_ : Int) : ℚ) < ((_ : Int) : ℚ)
      exact_mod_cast h)
  have h0 := inputRange_getElem? routes k (by omega)
  have h1 := inputRange_getElem? routes (k + 1) (by omega)
  have e := interpolateSegments_segment _ k
    (((k : Int) - 1 : Int), if (k : Int) - 1 = (index : Int) then x else y)
    (((k : Int) : Int), if (k : Int) = (index : Int) then x else y) p hs
    (by simp [List.getElem?_map, h0]) (by simp [List.getElem?_map, h1])
    (by push_cast; exact hlt) (by push_cast; exact hle)
  simpa using e

/-- With at least two break points the piecewise-linear map has a value. -/
theorem interpolateSegments_isSome :
    ∀ (pts : List (ℚ × Color)) (p : ℚ), 2 ≤ pts.length → (interpolateSegments pts p).isSome = true
  | [], _, h => by simp at h
  | [_], _, h => by simp at h
  | [(x0, c0), (x1, c1)], p, _ => by simp [interpolateSegments]
  | (x0, c0) :: (x1, c1) :: u :: rest, p, _ => by
      rw [interpolateSegments]
      split
      · rfl
      · exact interpolateSegments_isSome ((x1, c1) :: u :: rest) p (by simp)

theorem interpolate_ranges_isSome (routes : List NavigationRoute) (index : Nat) (x y : Color)
    (p : ℚ) (h : 1 ≤ routes.length) :
    (interpolate ⟨inputRange routes, outputRange (inputRange routes) index x y⟩ p).isSome
      = true := by
  unfold interpolate
  simp only [outputRange_length, if_true]
  apply interpolateSegments_isSome
  simp [outputRange_length, inputRange_length]
  omega

/-! ## Facts about `render` -/

theorem render_tabs_getElem? (props : Props) (k : Nat) :
    (render props).1.tabs[k]?
      = (props.navigation.state.routes[k]?).map (fun route => (renderTab props k route).1) := by
  simp only [render, List.getElem?_map, List.getElem?_mapIdx]
  cases props.navigation.state.routes[k]? <;> rfl

theorem render_tabs_length (props : Props) :
    (render props).1.tabs.length = props.navigation.state.routes.length := by
  simp [render]

theorem render_tabs_mem (props : Props) (tab : Tab) (h : tab ∈ (render props).1.tabs) :
    ∃ k route, props.navigation.state.routes[k]? = some route ∧
      tab = (renderTab props k route).1 := by
  obtain ⟨k, hk⟩ := List.mem_iff_getElem?.mp h
  rw [render_tabs_getElem?] at hk
  cases hr : props.navigation.state.routes[k]? with
  | none => simp [hr] at hk
  | some route =>
    refine ⟨k, route, hr, ?_⟩
    simp only [hr, Option.map_some', Option.some.injEq] at hk
    exact hk.symm

theorem render_calls_mem (props : Props) (c : Call) (h : c ∈ (render props).2) :
    ∃ k route, props.navigation.state.routes[k]? = some route ∧
      c ∈ (renderTab props k route).2 := by
  simp only [render, List.mem_flatten, List.mem_map] at h
  obtain ⟨l, ⟨t, ht, rfl⟩, hc⟩ := h
  obtain ⟨k, hk⟩ := List.mem_iff_getElem?.mp ht
  rw [List.getElem?_mapIdx] at hk
  cases hr : props.navigation.state.routes[k]? with
  | none => simp [hr] at hk
  | some route =>
    refine ⟨k, route, hr, ?_⟩
    simp only [hr, Option.map_some', Option.some.injEq] at hk
    rw [hk]
    exact hc

/-! ## C1: exact colours at an integer progress -/

/-- At a progress equal to the index `i` of a route, the interpolations built for
route `j` take the active colour when `j = i` and the inactive colour otherwise. -/
theorem getValue_at_index (props : Props) (i : Nat)
    (hi : i < props.navigation.state.routes.length)
    (hp : props.position.value = (i : ℚ)) (j : Nat) (s : TabScene) (hs : s.index = j) :
    (backgroundColor props j).getValue
        = some (if j = i then props.activeBackgroundColor else props.inactiveBackgroundColor) ∧
    (labelColor props s).getValue
        = some (if j = i then props.activeTintColor else props.inactiveTintColor) := by
  have key : ∀ (x y : Color),
      interpolate ⟨inputRange props.navigation.state.routes,
        outputRange (inputRange props.navigation.state.routes) j x y⟩ (i : ℚ)
        = some (if j = i then x else y) := by
    intro x y
    rw [interpolate_ranges _ j x y i (i : ℚ) hi (by linarith) le_rfl,
      Color.lerp_right _ _ _ _ (by linarith)]
    by_cases h : j = i
    · simp [h]
    · have h2 : ¬ ((i : Int) = (j : Int)) := by omega
      simp [h, h2]
  constructor
  · simp only [backgroundColor, AnimatedInterpolation.getValue, AnimatedValue.interpolate, hp]
    exact key _ _
  · simp only [labelColor, AnimatedInterpolation.getValue, AnimatedValue.interpolate, hp, hs]
    exact key _ _

/-- C1: when the animation progress is exactly the route index `i` (with
`i < N`), the background colour that `render` computes for route `i` is the
active background colour and the label colour that `_renderLabel` computes for
it is the active tint colour, and for every other route `j` they are the
inactive background and tint colours, exactly. -/
theorem C1_exact_colors_at_index (props : Props) (i : Nat)
    (hi : i < props.navigation.state.routes.length)
    (hp : props.position.value = (i : ℚ)) :
    ∀ (j : Nat) (s : TabScene), s.index = j →
      (backgroundColor props j).getValue
          = some (if j = i then props.activeBackgroundColor else props.inactiveBackgroundColor) ∧
      (labelColor props s).getValue
          = some (if j = i then props.activeTintColor else props.inactiveTintColor) :=
  fun j s hs => getValue_at_index props i hi hp j s hs

/-- C1 at the routes A, B, C with the progress at 1: B shows the active
colours, C the inactive ones. -/
theorem C1_exact_colors_at_index_witness :
    ((backgroundColor exampleProps 1).getValue = some exampleProps.activeBackgroundColor ∧
      (labelColor exampleProps ⟨⟨"b", "B"⟩, 1, true⟩).getValue
        = some exampleProps.activeTintColor) ∧
    ((backgroundColor exampleProps 2).getValue = some exampleProps.inactiveBackgroundColor ∧
      (labelColor exampleProps ⟨⟨"c", "C"⟩, 2, false⟩).getValue
        = some exampleProps.inactiveTintColor) :=
  ⟨by simpa using C1_exact_colors_at_index exampleProps 1 (by decide) (by simp [exampleProps])
        1 ⟨⟨"b", "B"⟩, 1, true⟩ rfl,
   by simpa using C1_exact_colors_at_index exampleProps 1 (by decide) (by simp [exampleProps])
        2 ⟨⟨"c", "C"⟩, 2, false⟩ rfl⟩

/-! ## C4: blending between two adjacent indices -/

theorem Color.mix_self (w : ℚ) (x : Color) : Color.mix w x x = x := by
  cases x
  simp only [Color.mix, Color.mk.injEq]
  refine ⟨?_, ?_, ?_, ?_⟩ <;> ring

theorem Color.mix_eq_left (w : ℚ) (x y : Color) (hw : w < 1) (h : Color.mix w x y = x) :
    x = y := by
  have h1 : 1 - w ≠ 0 := by linarith
  have hr := congrArg Color.r h
  have hg := congrArg Color.g h
  have hb := congrArg Color.b h
  have ha := congrArg Color.a h
  simp only [Color.mix] at hr hg hb ha
  have e : ∀ (u v : ℚ), w * u + (1 - w) * v = u → u = v := by
    intro u v huv
    have : (1 - w) * (v - u) = 0 := by linarith
    rcases mul_eq_zero.mp this with h0 | h0
    · exact absurd h0 h1
    · linarith
  cases x
  cases y
  simp only [Color.mk.injEq]
  exact ⟨e _ _ hr, e _ _ hg, e _ _ hb, e _ _ ha⟩

theorem Color.mix_eq_right (w : ℚ) (x y : Color) (hw : 0 < w) (h : Color.mix w x y = y) :
    x = y := by
  have h1 : w ≠ 0 := by linarith
  have hr := congrArg Color.r h
  have hg := congrArg Color.g h
  have hb := congrArg Color.b h
  have ha := congrArg Color.a h
  simp only [Color.mix] at hr hg hb ha
  have e : ∀ (u v : ℚ), w * u + (1 - w) * v = v → u = v := by
    intro u v huv
    have : w * (u - v) = 0 := by linarith
    rcases mul_eq_zero.mp this with h0 | h0
    · exact absurd h0 h1
    · linarith
  cases x
  cases y
  simp only [Color.mk.injEq]
  exact ⟨e _ _ hr, e _ _ hg, e _ _ hb, e _ _ ha⟩

/-- A blend with a weight strictly inside `(0, 1)` is strictly between its two
colours exactly when they differ. -/
theorem Color.mix_strictlyBetween (w : ℚ) (x y : Color) (h0 : 0 < w) (h1 : w < 1) :
    (Color.mix w x y).StrictlyBetween x y ↔ x ≠ y := by
  constructor
  · rintro ⟨_, hx, _⟩ rfl
    exact hx (Color.mix_self w x)
  · intro hne
    exact ⟨⟨w, h0, h1, rfl⟩, fun h => hne (Color.mix_eq_left w x y h1 h),
      fun h => hne (Color.mix_eq_right w x y h0 h)⟩

/-- The value of the interpolation built for route `r`, one of the two
neighbours `i` and `i + 1` of a progress strictly between them. -/
theorem interpolate_between (routes : List NavigationRoute) (x y : Color) (i r : Nat) (p : ℚ)
    (hN : i + 1 < routes.length) (hlo : (i : ℚ) < p) (hhi : p < (i : ℚ) + 1)
    (hr : r = i ∨ r = i + 1) :
    interpolate ⟨inputRange routes, outputRange (inputRange routes) r x y⟩ p
      = some (Color.mix (activeWeight p r) x y) := by
  rw [interpolate_ranges routes r x y (i + 1) p hN (by push_cast; linarith)
    (by push_cast; linarith)]
  have e : ((i + 1 : Nat) : ℚ) - 1 = (i : ℚ) := by push_cast; ring
  have e2 : ((i + 1 : Nat) : ℚ) = (i : ℚ) + 1 := by push_cast; ring
  rw [e, e2]
  rcases hr with rfl | rfl
  · have h1 : ((r + 1 : Nat) : Int) - 1 = (r : Int) := by omega
    have h2 : ¬ (((r + 1 : Nat) : Int) = (r : Int)) := by omega
    rw [if_pos h1, if_neg h2, Color.lerp_unit_left]
    congr 2
    unfold activeWeight
    rw [abs_of_pos (by linarith)]
  · have h1 : ¬ (((i + 1 : Nat) : Int) - 1 = ((i + 1 : Nat) : Int)) := by omega
    rw [if_neg h1, if_pos rfl, Color.lerp_unit_right]
    congr 2
    unfold activeWeight
    rw [abs_of_neg (by push_cast; linarith)]
    push_cast
    ring

/-- C4, against the claim as stated: with the default colours, two routes and
the progress at 1/2, the background colour resolved for route 0 is the active
background colour itself (and the inactive one: both are transparent), so it is
not strictly between the two. -/
theorem C4_default_background_not_between :
    (backgroundColor defaultExample 0).getValue = some defaultExample.activeBackgroundColor ∧
    (backgroundColor defaultExample 0).getValue = some defaultExample.inactiveBackgroundColor ∧
    ¬ ∃ c, (backgroundColor defaultExample 0).getValue = some c ∧
        c.StrictlyBetween defaultExample.activeBackgroundColor
          defaultExample.inactiveBackgroundColor := by
  have h : (backgroundColor defaultExample 0).getValue = some transparent := by
    have e := interpolate_between defaultExample.navigation.state.routes transparent transparent
      0 0 (1 / 2) (by decide) (by norm_num) (by norm_num) (Or.inl rfl)
    rw [Color.mix_self] at e
    exact e
  refine ⟨h, h, ?_⟩
  rintro ⟨c, hc, _, hx, _⟩
  rw [h] at hc
  exact hx (Option.some.inj hc).symm

/-- C4, amended: for a progress `p` strictly between the adjacent indices `i`
and `i + 1` (both routes existing) and `r` one of the two, the background and
label colours resolved for route `r` are the blend of the active and inactive
colours in which the active colour has the weight `1 - |p - r|`; that weight is
strictly inside `(0, 1)` and decreases as the distance grows; and the blend is
strictly between the active and the inactive colour exactly when the two
differ. -/
theorem C4_blend_between_neighbours (props : Props) (i r : Nat)
    (hN : i + 1 < props.navigation.state.routes.length)
    (hlo : (i : ℚ) < props.position.value) (hhi : props.position.value < (i : ℚ) + 1)
    (hr : r = i ∨ r = i + 1) :
    (0 < activeWeight props.position.value r ∧ activeWeight props.position.value r < 1) ∧
    (backgroundColor props r).getValue
      = some (Color.mix (activeWeight props.position.value r)
          props.activeBackgroundColor props.inactiveBackgroundColor) ∧
    (∀ s : TabScene, s.index = r →
      (labelColor props s).getValue
        = some (Color.mix (activeWeight props.position.value r)
            props.activeTintColor props.inactiveTintColor)) ∧
    ((Color.mix (activeWeight props.position.value r)
        props.activeBackgroundColor props.inactiveBackgroundColor).StrictlyBetween
        props.activeBackgroundColor props.inactiveBackgroundColor
      ↔ props.activeBackgroundColor ≠ props.inactiveBackgroundColor) ∧
    ((Color.mix (activeWeight props.position.value r)
        props.activeTintColor props.inactiveTintColor).StrictlyBetween
        props.activeTintColor props.inactiveTintColor
      ↔ props.activeTintColor ≠ props.inactiveTintColor) ∧
    (∀ (q : ℚ) (t : Nat), |props.position.value - (r : ℚ)| < |q - (t : ℚ)| →
      activeWeight q t < activeWeight props.position.value r) := by
  have hw : 0 < activeWeight props.position.value r ∧ activeWeight props.position.value r < 1 := by
    unfold activeWeight
    rcases hr with rfl | rfl
    · rw [abs_of_pos (by linarith)]
      constructor <;> linarith
    · rw [abs_of_neg (by push_cast; linarith)]
      push_cast
      constructor <;> linarith
  refine ⟨hw, ?_, ?_, Color.mix_strictlyBetween _ _ _ hw.1 hw.2,
    Color.mix_strictlyBetween _ _ _ hw.1 hw.2, ?_⟩
  · simp only [backgroundColor, AnimatedInterpolation.getValue, AnimatedValue.interpolate]
    exact interpolate_between _ _ _ i r _ hN hlo hhi hr
  · intro s hs
    simp only [labelColor, AnimatedInterpolation.getValue, AnimatedValue.interpolate, hs]
    exact interpolate_between _ _ _ i r _ hN hlo hhi hr
  · intro q t h
    unfold activeWeight
    linarith

/-- C4, amended, at the default colours with two routes and the progress at
1/2: the label colour of route 0 is the even blend of the two default tints,
which is strictly between them. -/
theorem C4_blend_between_neighbours_witness :
    (labelColor defaultExample ⟨⟨"a", "A"⟩, 0, true⟩).getValue
        = some (Color.mix (activeWeight (1 / 2) 0) defaultProps.activeTintColor
            defaultProps.inactiveTintColor) ∧
    (Color.mix (activeWeight (1 / 2) 0) defaultProps.activeTintColor
        defaultProps.inactiveTintColor).StrictlyBetween
        defaultProps.activeTintColor defaultProps.inactiveTintColor :=
  have h := C4_blend_between_neighbours defaultExample 0 0 (by decide)
    (by norm_num [defaultExample]) (by norm_num [defaultExample]) (Or.inl rfl)
  ⟨h.2.2.1 ⟨⟨"a", "A"⟩, 0, true⟩ rfl, h.2.2.2.2.1.mpr (by decide)⟩

/-! ## C7: the input range -/

/-- C7: the input range is to have at least two items for every route list, as
the comment at lines 74 and 138 says; for an empty route list the code builds
`[-1]`, a single item, in `render` and in `_renderLabel` alike, and the
interpolation built from it has no value. -/
theorem C7_no_routes_single_break_point :
    inputRange emptyProps.navigation.state.routes = [-1] ∧
    ¬ (2 ≤ (labelColor emptyProps ⟨⟨"a", "A"⟩, 0, true⟩).config.inputRange.length) ∧
    ¬ (2 ≤ (backgroundColor emptyProps 0).config.inputRange.length) ∧
    (labelColor emptyProps ⟨⟨"a", "A"⟩, 0, true⟩).getValue = none := by
  refine ⟨rfl, by decide, by decide, ?_⟩
  simp [labelColor, AnimatedInterpolation.getValue, AnimatedValue.interpolate, interpolate,
    inputRange, outputRange, emptyProps, interpolateSegments]

/-- The shape of the input range built in `render` and in `_renderLabel` for a
route list of length `N`: it is `[-1, 0, ..., N - 1]`, strictly increasing, with
`N + 1` items, as has the matching output range; for `N ≥ 1`, which holds
whenever `render` builds a tab, it has at least two items and the interpolation
has a value. -/
theorem inputRange_shape (props : Props) (index : Nat) (s : TabScene) :
    (backgroundColor props index).config.inputRange
      = -1 :: (List.range props.navigation.state.routes.length).map
          (fun (i : Nat) => (i : Int)) ∧
    (labelColor props s).config.inputRange = (backgroundColor props index).config.inputRange ∧
    (backgroundColor props index).config.inputRange.Pairwise (fun u v => u < v) ∧
    (backgroundColor props index).config.inputRange.length
      = props.navigation.state.routes.length + 1 ∧
    (backgroundColor props index).config.outputRange.length
      = (backgroundColor props index).config.inputRange.length ∧
    (labelColor props s).config.outputRange.length
      = (labelColor props s).config.inputRange.length ∧
    (1 ≤ props.navigation.state.routes.length →
      2 ≤ (backgroundColor props index).config.inputRange.length ∧
      (backgroundColor props index).getValue.isSome = true ∧
      (labelColor props s).getValue.isSome = true) ∧
    ((render props).1.tabs ≠ [] → 1 ≤ props.navigation.state.routes.length) := by
  refine ⟨inputRange_eq _, rfl, inputRange_pairwise _, inputRange_length _,
    outputRange_length _ _ _ _, outputRange_length _ _ _ _, ?_, ?_⟩
  · intro h
    refine ⟨?_, interpolate_ranges_isSome _ _ _ _ _ h, interpolate_ranges_isSome _ _ _ _ _ h⟩
    show 2 ≤ (inputRange props.navigation.state.routes).length
    rw [inputRange_length]
    omega
  · intro h
    have := render_tabs_length props
    cases hl : (render props).1.tabs with
    | nil => exact absurd hl h
    | cons a t =>
      rw [hl] at this
      simp only [List.length_cons] at this
      omega

/-- The input range at the routes A, B, C is `[-1, 0, 1, 2]` and the
interpolation of route 1 has a value. -/
theorem inputRange_shape_example :
    (backgroundColor exampleProps 1).config.inputRange = [-1, 0, 1, 2] ∧
    2 ≤ (backgroundColor exampleProps 1).config.inputRange.length ∧
    (backgroundColor exampleProps 1).getValue.isSome = true :=
  have h := inputRange_shape exampleProps 1 ⟨⟨"b", "B"⟩, 1, true⟩
  ⟨h.1, (h.2.2.2.2.2.2.1 (by decide)).1, (h.2.2.2.2.2.2.1 (by decide)).2.1⟩

/-! ## C2: one keyed region per route -/

theorem render_keys (props : Props) :
    (render props).1.tabs.map Tab.key = props.navigation.state.routes.map NavigationRoute.key := by
  apply List.ext_getElem?
  intro k
  rw [List.getElem?_map, List.getElem?_map, render_tabs_getElem?]
  cases props.navigation.state.routes[k]? <;> rfl

/-- C2, against the claim as stated: for two routes that carry the same key the
two regions carry the same key, so the keys of the regions are not pairwise
distinct. -/
theorem C2_duplicate_route_keys :
    (render duplicateKeyProps).1.tabs.map Tab.key = ["a", "a"] ∧
    ¬ ((render duplicateKeyProps).1.tabs.map Tab.key).Nodup := by
  have h : (render duplicateKeyProps).1.tabs.map Tab.key = ["a", "a"] := by
    rw [render_keys]
    rfl
  refine ⟨h, ?_⟩
  rw [h]
  decide

/-- C2, amended: `render` produces exactly `N` tappable regions, in route order,
the `k`-th one keyed with the key of the `k`-th route; the keys of the regions
are pairwise distinct exactly when the keys of the routes are. -/
theorem C2_one_region_per_route (props : Props) :
    (render props).1.tabs.length = props.navigation.state.routes.length ∧
    (render props).1.tabs.map Tab.key
      = props.navigation.state.routes.map NavigationRoute.key ∧
    (∀ (k : Nat) (route : NavigationRoute), props.navigation.state.routes[k]? = some route →
      ∃ tab, (render props).1.tabs[k]? = some tab ∧ tab.key = route.key) ∧
    (((render props).1.tabs.map Tab.key).Nodup
      ↔ (props.navigation.state.routes.map NavigationRoute.key).Nodup) := by
  refine ⟨render_tabs_length props, render_keys props, ?_, ?_⟩
  · intro k route h
    refine ⟨(renderTab props k route).1, ?_, rfl⟩
    rw [render_tabs_getElem?, h]
    rfl
  · rw [render_keys]

/-- C2, amended, at the routes A, B, C: three regions keyed `a`, `b`, `c`,
pairwise distinct. -/
theorem C2_one_region_per_route_witness :
    (render exampleProps).1.tabs.length = 3 ∧
    (render exampleProps).1.tabs.map Tab.key = ["a", "b", "c"] ∧
    ((render exampleProps).1.tabs.map Tab.key).Nodup :=
  have h := C2_one_region_per_route exampleProps
  ⟨h.1, h.2.1, h.2.2.2.mpr (by decide)⟩

/-! ## C3: taps -/

theorem _renderLabel_calls (props : Props) (s : TabScene) (c : Call)
    (h : c ∈ (_renderLabel props s).2) :
    c = Call.getLabel (s.withTint (tintColor props s)) ∨
      c = Call.label (s.withTint (tintColor props s)) := by
  by_cases hs : props.showLabel = false
  · simp [_renderLabel, hs] at h
  · cases hg : props.getLabel (s.withTint (tintColor props s)) <;>
      simp [_renderLabel, hs, hg] at h <;> tauto

theorem _renderIcon_calls (props : Props) (s : TabScene) : (_renderIcon props s).2 = [] := by
  unfold _renderIcon
  split <;> rfl

/-- C3: the press handler of region `i` calls `jumpToIndex` exactly once, with
the single argument `i`, and calls nothing else, whatever the props (the active
index included) and whatever the press event; rendering makes no call to
`jumpToIndex`. -/
theorem C3_press_jumps_to_index (props : Props) :
    (∀ (i : Nat), i < props.navigation.state.routes.length →
      ∃ tab, (render props).1.tabs[i]? = some tab ∧
        ∀ ev : PressEvent, tab.onPress ev = [Call.jumpToIndex [(i : Int)]]) ∧
    (∀ c ∈ (render props).2, ∀ args, c ≠ Call.jumpToIndex args) := by
  constructor
  · intro i hi
    refine ⟨(renderTab props i props.navigation.state.routes[i]).1, ?_, fun _ => rfl⟩
    rw [render_tabs_getElem?, List.getElem?_eq_getElem hi]
    rfl
  · intro c hc args hEq
    obtain ⟨k, route, _, hmem⟩ := render_calls_mem props c hc
    simp only [renderTab, _renderIcon_calls, List.nil_append] at hmem
    rcases _renderLabel_calls props _ c hmem with h | h <;> rw [h] at hEq <;> cases hEq

/-- C3 at the routes A, B, C with B active: tapping region C calls
`jumpToIndex(2)` once, and rendering calls `jumpToIndex` not at all. -/
theorem C3_press_jumps_to_index_witness :
    (∃ tab, (render exampleProps).1.tabs[2]? = some tab ∧
      ∀ ev : PressEvent, tab.onPress ev = [Call.jumpToIndex [2]]) ∧
    (∀ c ∈ (render exampleProps).2, ∀ args, c ≠ Call.jumpToIndex args) :=
  ⟨(C3_press_jumps_to_index exampleProps).1 2 (by decide), (C3_press_jumps_to_index exampleProps).2⟩

/-! ## C5: hidden labels -/

/-- C5: with `showLabel = false`, `_renderLabel` returns `null` and makes no
call, whatever the scene and whatever the `getLabel` delegate. -/
theorem C5_hidden_label (props : Props) (s : TabScene) (h : props.showLabel = false) :
    ∀ getLabel : LabelScene → Label,
      _renderLabel { props with getLabel := getLabel } s = (Node.null, []) := by
  intro getLabel
  simp [_renderLabel, h]

/-- C5 at the routes A, B, C with labels hidden, for a delegate that returns a
function. -/
theorem C5_hidden_label_witness :
    _renderLabel
      { { exampleProps with showLabel := false } with
        getLabel := fun _ => Label.fn (fun _ => Node.element "label") }
      ⟨⟨"b", "B"⟩, 1, true⟩ = (Node.null, []) :=
  C5_hidden_label { exampleProps with showLabel := false } ⟨⟨"b", "B"⟩, 1, true⟩ rfl
    (fun _ => Label.fn (fun _ => Node.element "label"))

/-! ## C9: hidden icons -/

/-- C9: with `showIcon = false`, `_renderIcon` returns `null` and makes no call,
whatever the scene and whatever the `renderIcon` delegate; every tab that
`render` builds has `null` as its icon child, and what `render` returns does
not depend on the `renderIcon` delegate. -/
theorem C9_hidden_icon (props : Props) (h : props.showIcon = false) :
    (∀ (renderIcon : TabScene → Node) (s : TabScene),
      _renderIcon { props with renderIcon := renderIcon } s = (Node.null, [])) ∧
    (∀ tab ∈ (render props).1.tabs, tab.icon = Node.null) ∧
    (∀ renderIcon : TabScene → Node,
      render { props with renderIcon := renderIcon } = render props) := by
  refine ⟨?_, ?_, ?_⟩
  · intro renderIcon s
    simp [_renderIcon, h]
  · intro tab htab
    obtain ⟨k, route, _, rfl⟩ := render_tabs_mem props tab htab
    simp [renderTab, _renderIcon, h]
  · intro renderIcon
    have e : renderTab { props with renderIcon := renderIcon } = renderTab props := by
      funext index route
      simp [renderTab, _renderIcon, h, _renderLabel, labelColor, tintColor, backgroundColor,
        justifyContent]
    simp only [render, e]

/-- C9 at the routes A, B, C with icons hidden. -/
theorem C9_hidden_icon_witness :
    _renderIcon { exampleProps with showIcon := false } ⟨⟨"b", "B"⟩, 1, true⟩
      = (Node.null, []) ∧
    (∀ tab ∈ (render { exampleProps with showIcon := false }).1.tabs, tab.icon = Node.null) :=
  ⟨(C9_hidden_icon { exampleProps with showIcon := false } rfl).1 exampleProps.renderIcon
      ⟨⟨"b", "B"⟩, 1, true⟩,
   (C9_hidden_icon { exampleProps with showIcon := false } rfl).2.1⟩

/-! ## C8: the shapes of a label -/

theorem resolveStyle_color_of_labelStyle (props : Props) (color : AnimatedInterpolation) :
    (props.labelStyle.bind (fun st => st.get? "color") = none →
      resolveStyle [some styles.label, some [("color", .animated color)], props.labelStyle]
        "color" = some (.animated color)) ∧
    (∀ v, props.labelStyle.bind (fun st => st.get? "color") = some v →
      resolveStyle [some styles.label, some [("color", .animated color)], props.labelStyle]
        "color" = some v) := by
  constructor
  · intro hl
    cases hst : props.labelStyle with
    | none => simp [resolveStyle, Style.get?]
    | some st =>
      rw [hst] at hl
      simp only [Option.bind] at hl
      simp only [resolveStyle, hl]
      simp [Style.get?]
  · intro v hl
    cases hst : props.labelStyle with
    | none => simp [hst] at hl
    | some st =>
      rw [hst] at hl
      simp only [Option.bind] at hl
      simp [resolveStyle, hl]

/-- C8, against the claim as stated: with a `labelStyle` that sets the colour
green and a `getLabel` that returns the string `B`, `_renderLabel` gives the
text `B` whose style array ends with that `labelStyle`, so the colour of the
text is green and not the interpolated tint. -/
theorem C8_labelStyle_overrides_color :
    _renderLabel greenLabelProps ⟨⟨"b", "B"⟩, 1, true⟩
      = (Node.animatedText
          [some styles.label,
            some [("color", .animated (labelColor greenLabelProps ⟨⟨"b", "B"⟩, 1, true⟩))],
            some [("color", .color ⟨0, 255, 0, 1⟩)]] "B",
         [Call.getLabel ⟨⟨"b", "B"⟩, 1, true, greenLabelProps.activeTintColor⟩]) ∧
    (_renderLabel greenLabelProps ⟨⟨"b", "B"⟩, 1, true⟩).1.color?
      = some (.color ⟨0, 255, 0, 1⟩) ∧
    (_renderLabel greenLabelProps ⟨⟨"b", "B"⟩, 1, true⟩).1.color?
      ≠ some (.animated (labelColor greenLabelProps ⟨⟨"b", "B"⟩, 1, true⟩)) := by
  have e : _renderLabel greenLabelProps ⟨⟨"b", "B"⟩, 1, true⟩
      = (Node.animatedText
          [some styles.label,
            some [("color", .animated (labelColor greenLabelProps ⟨⟨"b", "B"⟩, 1, true⟩))],
            some [("color", .color ⟨0, 255, 0, 1⟩)]] "B",
         [Call.getLabel ⟨⟨"b", "B"⟩, 1, true, greenLabelProps.activeTintColor⟩]) := by
    simp [_renderLabel, greenLabelProps, exampleProps, tintColor, TabScene.withTint]
  have c : (_renderLabel greenLabelProps ⟨⟨"b", "B"⟩, 1, true⟩).1.color?
      = some (.color ⟨0, 255, 0, 1⟩) := by
    rw [e]
    simp [Node.color?, resolveStyle, Style.get?]
  refine ⟨e, c, ?_⟩
  rw [c]
  simp

/-- C8, amended: with `showLabel` not false, `_renderLabel` calls `getLabel`
once, with the scene augmented with `tintColor`, and dispatches on the shape of
what it returns. A string gives an `Animated.Text` with that string as content
and the style array `[styles.label, { color }, labelStyle]`, `color` being the
interpolated tint: the colour of the text is the interpolated tint when
`labelStyle` sets no colour, and the colour of `labelStyle` when it sets one. A
function gives exactly what that function returns when called once with the
same augmented scene. Anything else is returned as it is, with no further call:
`null` gives `null` and `undefined` gives `undefined`. For a label of one of the
three documented shapes (string, function, null or absent) exactly one of the
three outcomes arises, the one of its shape. -/
theorem C8_label_dispatch (props : Props) (s : TabScene) (h : props.showLabel ≠ false) :
    (∀ text : String, props.getLabel (s.withTint (tintColor props s)) = Label.str text →
      _renderLabel props s
        = (Node.animatedText
            [some styles.label, some [("color", .animated (labelColor props s))],
              props.labelStyle] text,
           [Call.getLabel (s.withTint (tintColor props s))]) ∧
      (props.labelStyle.bind (fun st => st.get? "color") = none →
        (_renderLabel props s).1.color? = some (.animated (labelColor props s))) ∧
      (∀ v, props.labelStyle.bind (fun st => st.get? "color") = some v →
        (_renderLabel props s).1.color? = some v)) ∧
    (∀ f : LabelScene → Node, props.getLabel (s.withTint (tintColor props s)) = Label.fn f →
      _renderLabel props s
        = (f (s.withTint (tintColor props s)),
           [Call.getLabel (s.withTint (tintColor props s)),
            Call.label (s.withTint (tintColor props s))])) ∧
    (∀ n : Node, props.getLabel (s.withTint (tintColor props s)) = Label.other n →
      _renderLabel props s = (n, [Call.getLabel (s.withTint (tintColor props s))])) ∧
    (((∃ text, props.getLabel (s.withTint (tintColor props s)) = Label.str text) ∨
        (∃ f, props.getLabel (s.withTint (tintColor props s)) = Label.fn f) ∨
        props.getLabel (s.withTint (tintColor props s)) = Label.other Node.null ∨
        props.getLabel (s.withTint (tintColor props s)) = Label.other Node.undefined) →
      ((∃ text, props.getLabel (s.withTint (tintColor props s)) = Label.str text)
        ↔ ∃ text, _renderLabel props s
            = (Node.animatedText
                [some styles.label, some [("color", .animated (labelColor props s))],
                  props.labelStyle] text,
               [Call.getLabel (s.withTint (tintColor props s))])) ∧
      ((∃ f, props.getLabel (s.withTint (tintColor props s)) = Label.fn f)
        ↔ (_renderLabel props s).2
            = [Call.getLabel (s.withTint (tintColor props s)),
               Call.label (s.withTint (tintColor props s))]) ∧
      ((props.getLabel (s.withTint (tintColor props s)) = Label.other Node.null ∨
          props.getLabel (s.withTint (tintColor props s)) = Label.other Node.undefined)
        ↔ (_renderLabel props s).2 = [Call.getLabel (s.withTint (tintColor props s))] ∧
            ((_renderLabel props s).1 = Node.null ∨
              (_renderLabel props s).1 = Node.undefined)) ∧
      ¬ ((∃ text, props.getLabel (s.withTint (tintColor props s)) = Label.str text) ∧
          (∃ f, props.getLabel (s.withTint (tintColor props s)) = Label.fn f)) ∧
      ¬ ((∃ text, props.getLabel (s.withTint (tintColor props s)) = Label.str text) ∧
          (props.getLabel (s.withTint (tintColor props s)) = Label.other Node.null ∨
            props.getLabel (s.withTint (tintColor props s)) = Label.other Node.undefined)) ∧
      ¬ ((∃ f, props.getLabel (s.withTint (tintColor props s)) = Label.fn f) ∧
          (props.getLabel (s.withTint (tintColor props s)) = Label.other Node.null ∨
            props.getLabel (s.withTint (tintColor props s)) = Label.other Node.undefined))) := by
  have hs : ¬ props.showLabel = false := h
  refine ⟨?_, ?_, ?_, ?_⟩
  · intro text hg
    have e : _renderLabel props s
        = (Node.animatedText
            [some styles.label, some [("color", .animated (labelColor props s))],
              props.labelStyle] text,
           [Call.getLabel (s.withTint (tintColor props s))]) := by
      simp [_renderLabel, hs, hg]
    refine ⟨e, ?_, ?_⟩
    · intro hl
      rw [e]
      exact (resolveStyle_color_of_labelStyle props (labelColor props s)).1 hl
    · intro v hl
      rw [e]
      exact (resolveStyle_color_of_labelStyle props (labelColor props s)).2 v hl
  · intro f hg
    simp [_renderLabel, hs, hg]
  · intro n hg
    simp [_renderLabel, hs, hg]
  · rintro (⟨text, hg⟩ | ⟨f, hg⟩ | hg | hg) <;> simp [_renderLabel, hs, hg]

/-- C8, amended, at the routes A, B, C: the delegate returns the route name, a
string, and the label of route B is the text `B`; no `labelStyle` is set, so
its colour is the interpolated tint. -/
theorem C8_label_dispatch_witness :
    _renderLabel exampleProps ⟨⟨"b", "B"⟩, 1, true⟩
      = (Node.animatedText
          [some styles.label,
            some [("color", .animated (labelColor exampleProps ⟨⟨"b", "B"⟩, 1, true⟩))],
            exampleProps.labelStyle] "B",
         [Call.getLabel ⟨⟨"b", "B"⟩, 1, true, exampleProps.activeTintColor⟩]) ∧
    (_renderLabel exampleProps ⟨⟨"b", "B"⟩, 1, true⟩).1.color?
      = some (.animated (labelColor exampleProps ⟨⟨"b", "B"⟩, 1, true⟩)) :=
  ⟨((C8_label_dispatch exampleProps ⟨⟨"b", "B"⟩, 1, true⟩ (by decide)).1 "B" rfl).1,
   ((C8_label_dispatch exampleProps ⟨⟨"b", "B"⟩, 1, true⟩ (by decide)).1 "B" rfl).2.1 rfl⟩

/-! ## C6: the justification of a tab -/

/-- C6, against the claim as stated: with icons shown and a `tabStyle` that
sets `justifyContent` to `center`, `_renderIcon` renders an icon for the first
tab and yet the resulting `justifyContent` of that tab is `center`. -/
theorem C6_tabStyle_overrides_justification :
    overrideProps.showIcon = true ∧
    (_renderIcon overrideProps (scene overrideProps.navigation ⟨"a", "A"⟩ 0)).1 ≠ Node.null ∧
    ((render overrideProps).1.tabs[0]?).map (fun tab => resolveStyle tab.style "justifyContent")
      = some (some (.str "center")) := by
  refine ⟨rfl, ?_, ?_⟩
  · simp [_renderIcon, overrideProps, exampleProps]
  · rw [render_tabs_getElem?]
    simp [overrideProps, exampleProps, exampleRoutes, renderTab, resolveStyle, Style.get?]

/-- C6, amended: the `justifyContent` that `render` computes for a tab is
`center` when `showIcon = false` and `flex-end` when icons are shown, that is
`flex-end` exactly when `_renderIcon` renders an icon for that tab; it is the
resulting `justifyContent` of the tab whenever `tabStyle` sets none, and
otherwise the one of `tabStyle` is. -/
theorem C6_justification (props : Props) (index : Nat) (route : NavigationRoute) :
    (props.showIcon = false → justifyContent props = "center") ∧
    (props.showIcon = true → justifyContent props = "flex-end") ∧
    (justifyContent props = "flex-end"
      ↔ (_renderIcon props (scene props.navigation route index)).1 ≠ Node.null) ∧
    (renderTab props index route).1.style
      = [some styles.tab,
         some [("backgroundColor", .animated (backgroundColor props index)),
               ("justifyContent", .str (justifyContent props))],
         props.tabStyle] ∧
    (props.tabStyle.bind (fun st => st.get? "justifyContent") = none →
      resolveStyle (renderTab props index route).1.style "justifyContent"
        = some (.str (justifyContent props))) ∧
    (∀ v, props.tabStyle.bind (fun st => st.get? "justifyContent") = some v →
      resolveStyle (renderTab props index route).1.style "justifyContent" = some v) := by
  refine ⟨?_, ?_, ?_, rfl, ?_, ?_⟩
  · intro h
    simp [justifyContent, h]
  · intro h
    simp [justifyContent, h]
  · cases h : props.showIcon <;> simp [justifyContent, _renderIcon, h]
  · intro hl
    cases hst : props.tabStyle with
    | none => simp [renderTab, hst, resolveStyle, Style.get?]
    | some st =>
      rw [hst] at hl
      simp only [Option.bind] at hl
      simp only [renderTab, hst, resolveStyle, hl]
      simp [Style.get?]
  · intro v hl
    cases hst : props.tabStyle with
    | none => simp [hst] at hl
    | some st =>
      rw [hst] at hl
      simp only [Option.bind] at hl
      simp [renderTab, hst, resolveStyle, hl]

/-- C6, amended, at the routes A, B, C: without a `tabStyle`, hiding the icons
gives `center` and showing them gives `flex-end`. -/
theorem C6_justification_witness :
    resolveStyle (renderTab { exampleProps with showIcon := false } 1 ⟨"b", "B"⟩).1.style
        "justifyContent" = some (.str "center") ∧
    resolveStyle (renderTab exampleProps 1 ⟨"b", "B"⟩).1.style "justifyContent"
        = some (.str "flex-end") :=
  ⟨(C6_justification { exampleProps with showIcon := false } 1 ⟨"b", "B"⟩).2.2.2.2.1 rfl,
   (C6_justification exampleProps 1 ⟨"b", "B"⟩).2.2.2.2.1 rfl⟩

/-! ## C10: the focused scene and the discrete tint -/

theorem scenes_getElem? (props : Props) (k : Nat) :
    (scenes props)[k]?
      = (props.navigation.state.routes[k]?).map (fun route => scene props.navigation route k) := by
  simp only [scenes, List.getElem?_mapIdx]

theorem scenes_mem (props : Props) (s : TabScene) (h : s ∈ scenes props) :
    ∃ k route, k < props.navigation.state.routes.length ∧ (scenes props)[k]? = some s ∧
      s = scene props.navigation route k := by
  obtain ⟨k, hk⟩ := List.mem_iff_getElem?.mp h
  have hk2 := hk
  rw [scenes_getElem?] at hk2
  by_cases hlt : k < props.navigation.state.routes.length
  · rw [List.getElem?_eq_getElem hlt] at hk2
    simp only [Option.map_some', Option.some.injEq] at hk2
    exact ⟨k, _, hlt, hk, hk2.symm⟩
  · rw [List.getElem?_eq_none (Nat.le_of_not_lt hlt)] at hk2
    simp at hk2

theorem scenes_focused (props : Props) (k : Nat) (s : TabScene)
    (h : (scenes props)[k]? = some s) :
    s.index = k ∧ k < props.navigation.state.routes.length ∧
      (s.focused = true ↔ (k : Int) = props.navigation.state.index) := by
  rw [scenes_getElem?] at h
  by_cases hlt : k < props.navigation.state.routes.length
  · rw [List.getElem?_eq_getElem hlt] at h
    simp only [Option.map_some', Option.some.injEq] at h
    subst h
    simp [scene, hlt]
  · rw [List.getElem?_eq_none (Nat.le_of_not_lt hlt)] at h
    simp at h

/-- C10: the labels of the tabs are `_renderLabel` of the scenes that `render`
builds, and `_renderLabel` hands `getLabel` the scene with the discrete
`tintColor` (active if focused, inactive otherwise). When the active index is
inside `[0, N)`, the scene at that index is focused and no other is, so exactly
one scene is focused; and when moreover the animation progress equals the
active index, the discrete `tintColor` of every scene equals the interpolated
label colour computed for it. When the active index is outside `[0, N)`, no
scene is focused and every scene gets the inactive tint colour. -/
theorem C10_focus_and_tint (props : Props) :
    (render props).1.tabs.map Tab.label
      = (scenes props).map (fun s => (_renderLabel props s).1) ∧
    (props.showLabel = true → ∀ s : TabScene,
      (_renderLabel props s).2.head? = some (Call.getLabel (s.withTint (tintColor props s)))) ∧
    (0 ≤ props.navigation.state.index →
      props.navigation.state.index < (props.navigation.state.routes.length : Int) →
        (∀ (k : Nat) (s : TabScene), (scenes props)[k]? = some s →
          (s.focused = true ↔ (k : Int) = props.navigation.state.index)) ∧
        (∃! k : Nat, ∃ s : TabScene, (scenes props)[k]? = some s ∧ s.focused = true) ∧
        (props.position.value = (props.navigation.state.index : ℚ) →
          ∀ s ∈ scenes props, (labelColor props s).getValue = some (tintColor props s))) ∧
    (¬ (0 ≤ props.navigation.state.index ∧
        props.navigation.state.index < (props.navigation.state.routes.length : Int)) →
      ∀ s ∈ scenes props, s.focused = false ∧ tintColor props s = props.inactiveTintColor) := by
  refine ⟨?_, ?_, ?_, ?_⟩
  · apply List.ext_getElem?
    intro k
    rw [List.getElem?_map, List.getElem?_map, render_tabs_getElem?, scenes_getElem?]
    cases props.navigation.state.routes[k]? <;> rfl
  · intro h s
    cases hg : props.getLabel (s.withTint (tintColor props s)) <;> simp [_renderLabel, h, hg]
  · intro h0 hN
    have hnat : ((props.navigation.state.index.toNat : Nat) : Int) = props.navigation.state.index :=
      Int.toNat_of_nonneg h0
    have hlt : props.navigation.state.index.toNat < props.navigation.state.routes.length := by
      omega
    refine ⟨fun k s hs => (scenes_focused props k s hs).2.2, ?_, ?_⟩
    · refine ⟨props.navigation.state.index.toNat, ?_, ?_⟩
      · refine ⟨scene props.navigation
          props.navigation.state.routes[props.navigation.state.index.toNat]
          props.navigation.state.index.toNat, ?_, ?_⟩
        · rw [scenes_getElem?, List.getElem?_eq_getElem hlt]
          rfl
        · simp [scene, hnat]
      · rintro k ⟨s, hs, hf⟩
        have := (scenes_focused props k s hs).2.2.mp hf
        omega
    · intro hp s hs
      obtain ⟨k, route, hk, hsk, _⟩ := scenes_mem props s hs
      have hf := scenes_focused props k s hsk
      have hv := (getValue_at_index props props.navigation.state.index.toNat hlt
        (by rw [hp]; exact_mod_cast congrArg (fun z : Int => (z : ℚ)) hnat.symm) k s hf.1).2
      rw [hv]
      unfold tintColor
      by_cases hki : k = props.navigation.state.index.toNat
      · have : s.focused = true := hf.2.2.mpr (by omega)
        simp [hki, this]
      · have : ¬ s.focused = true := fun hc => hki (by have := hf.2.2.mp hc; omega)
        simp [hki, this]
  · intro hout s hs
    obtain ⟨k, route, hk, hsk, _⟩ := scenes_mem props s hs
    have hf := scenes_focused props k s hsk
    have hnf : s.focused = false := by
      cases hc : s.focused with
      | false => rfl
      | true =>
        have := hf.2.2.mp hc
        exact absurd ⟨by omega, by omega⟩ hout
    exact ⟨hnf, by simp [tintColor, hnf]⟩

/-- C10 at the routes A, B, C with B active and the progress at 1: exactly one
scene is focused and every scene's discrete tint is its interpolated label
colour. -/
theorem C10_focus_and_tint_witness :
    (∃! k : Nat, ∃ s : TabScene, (scenes exampleProps)[k]? = some s ∧ s.focused = true) ∧
    (∀ s ∈ scenes exampleProps,
      (labelColor exampleProps s).getValue = some (tintColor exampleProps s)) :=
  have h := (C10_focus_and_tint exampleProps).2.2.1 (by decide) (by decide)
  ⟨h.2.1, h.2.2 (by simp [exampleProps])⟩

end TabBarBottom
